import Mathlib

/-!
Verification development for the util-linux low-level probing engine
(libblkid lowprobe + config reader) and the libmount table lookup engine.

The definitions below are shallow embeddings of the C sources:
  * the lowprobe engine (probe.c): chains, do_probe / do_safeprobe /
    do_fullprobe iteration, step_back, buffer cache, magic matcher,
    value list, wiper policy;
  * the config reader (config.c): parse_next key dispatch;
  * the mount table lookup (libmount/src/tab.c): mnt_table_find_target.

Pointers become explicit state threading; the per-chain driver callbacks
(driver->probe, driver->safeprobe), which live in other translation units,
are abstracted as function parameters.  Machine integers are modelled as
Nat/Int; in the buffer layer, where the C uint64_t sums of offsets and
lengths can wrap (the code has no overflow guard in front of its window
comparisons), every such sum is taken modulo 2^64 (wrap64, u64sub).
-/

namespace Blkid

/-- Number of probing chains (BLKID_NCHAINS): superblocks, topology, partitions. -/
def NCHAINS : Nat := 3

/-- Per-chain state (struct blkid_chain) together with the static driver data
it points at (struct blkid_chaindrv): the driver id, the descriptor count
nidinfos, and whether the chain flags include the BLKID_SUBLKS_MAGIC /
BLKID_PARTS_MAGIC bit (field magicFlag, used by blkid_probe_set_magic). -/
structure Chain where
  id : Nat
  enabled : Bool
  idx : Int
  nidinfos : Nat
  binary : Bool
  magicFlag : Bool
  deriving Repr, DecidableEq

/-- One probing result value (struct blkid_prval).  The chain field is the
chain pointer recorded by blkid_probe_assign_value (None when pr->cur_chain
was NULL). -/
structure PrVal where
  name : String
  chain : Option (Fin NCHAINS)
  data : List Nat
  len : Nat
  deriving Repr, DecidableEq

/-- Cached buffer bookkeeping (struct blkid_bufinfo): device range held. -/
structure Bufinfo where
  off : Nat
  len : Nat
  deriving Repr, DecidableEq

/-- The probing control struct (struct blkid_struct_probe), restricted to the
fields the iteration / value / wiper code paths touch.  The noscan field is
the BLKID_FL_NOSCAN_DEV flag bit. -/
structure ProbeState where
  chains : Fin NCHAINS → Chain
  cur_chain : Option (Fin NCHAINS)
  noscan : Bool
  prob_flags : Nat
  wipe_off : Nat
  wipe_size : Nat
  wipe_chain : Option (Fin NCHAINS)
  buffers : List Bufinfo
  values : List PrVal

/-- Update one chain record in place. -/
def updChain (pr : ProbeState) (c : Fin NCHAINS) (f : Chain → Chain) : ProbeState :=
  { pr with chains := Function.update pr.chains c (f (pr.chains c)) }

/-- blkid_probe_set_wiper: size 0 zeroizes the wiper; otherwise the wiper is
recorded only when the current chain exists and its idx addresses a
descriptor. -/
def blkid_probe_set_wiper (pr : ProbeState) (off size : Nat) : ProbeState :=
  if size = 0 then
    { pr with wipe_size := 0, wipe_off := 0, wipe_chain := none }
  else
    match pr.cur_chain with
    | none => pr
    | some c =>
      let chn := pr.chains c
      if chn.idx < 0 ∨ (chn.nidinfos : Int) ≤ chn.idx then pr
      else { pr with wipe_size := size, wipe_off := off, wipe_chain := some c }

/-- blkid_probe_start: clear the current chain, probing flags and wiper. -/
def blkid_probe_start (pr : ProbeState) : ProbeState :=
  blkid_probe_set_wiper { pr with cur_chain := none, prob_flags := 0 } 0 0

/-- blkid_probe_end: identical bookkeeping to blkid_probe_start. -/
def blkid_probe_end (pr : ProbeState) : ProbeState :=
  blkid_probe_set_wiper { pr with cur_chain := none, prob_flags := 0 } 0 0

/-- Driver callback table: chn->driver->probe (resp. ->safeprobe) for the
chain at each position, abstracted as a state transformer returning the
C rc (-2 ambivalent, -1 error, 0 success, 1 no result). -/
def ProbeFn : Type := Fin NCHAINS → ProbeState → ProbeState × Int

/-- Tail of one blkid_do_probe loop iteration, after the current chain chn has
been selected (and possibly advanced): clear chn->binary, skip a disabled
chain (the continue statement re-tests the do-while condition rc == 1),
otherwise invoke chn->driver->probe and loop again exactly when it reports
no result. -/
def doProbeCont (fn : ProbeFn)
    (loop : ProbeState → Int → Option (ProbeState × Int))
    (pr : ProbeState) (c : Fin NCHAINS) (rc : Int) : Option (ProbeState × Int) :=
  let pr := updChain pr c (fun chn => { chn with binary := false })
  if (pr.chains c).enabled = false then
    (if rc = 1 then loop pr rc else some (pr, rc))
  else
    let r := fn c pr
    (if r.2 = 1 then loop r.1 r.2 else some (r.1, r.2))

/-- Chain selection step at the top of the blkid_do_probe loop body: a fresh
probe starts at chains[0]; otherwise, when the previous probing returned
nothing (rc == 1) and the current chain is disabled, exhausted
(idx + 1 == nidinfos) or bailed out at the start (idx == -1), move to the
chain whose array slot is chn->driver->id + 1; none signals that all chains
were probed (the function ends the probe and returns 1). -/
def doProbeSelect (pr : ProbeState) (rc : Int) : Option (ProbeState × Fin NCHAINS) :=
  match pr.cur_chain with
  | none =>
      let pr := blkid_probe_start pr
      some ({ pr with cur_chain := some ⟨0, by decide⟩ }, ⟨0, by decide⟩)
  | some c =>
      let chn := pr.chains c
      if rc = 1 ∧ (chn.enabled = false ∨ chn.idx + 1 = (chn.nidinfos : Int) ∨ chn.idx = -1) then
        let idx := chn.id + 1
        if h : idx < NCHAINS then
          some ({ pr with cur_chain := some ⟨idx, h⟩ }, ⟨idx, h⟩)
        else none
      else some (pr, c)

/-- The do-while loop of blkid_do_probe, with explicit fuel (the C loop
terminates because each driver->probe call advances chn->idx; the fuel
bounds the number of iterations and none means fuel ran out). -/
def doProbeLoop (fn : ProbeFn) : Nat → ProbeState → Int → Option (ProbeState × Int)
  | 0, _, _ => none
  | fuel + 1, pr, rc =>
    match doProbeSelect pr rc with
    | none => some (blkid_probe_end pr, 1)
    | some (pr, c) => doProbeCont fn (doProbeLoop fn fuel) pr c rc

/-- blkid_do_probe: return 1 immediately for a no-scan device, otherwise run
the iteration loop starting from rc = 1. -/
def blkid_do_probe (fn : ProbeFn) (fuel : Nat) (pr : ProbeState) : Option (ProbeState × Int) :=
  if pr.noscan then some (pr, 1)
  else doProbeLoop fn fuel pr 1

/-- The chains of the probe in array order, as visited by the
for (i = 0; i < BLKID_NCHAINS; i++) loops. -/
def chainIndices : List (Fin NCHAINS) := [⟨0, by decide⟩, ⟨1, by decide⟩, ⟨2, by decide⟩]

/-- The for loop shared by blkid_do_safeprobe and blkid_do_fullprobe (the two
C bodies are identical except that the former invokes chn->driver->safeprobe
and the latter chn->driver->probe; both are the abstract fn here): set
cur_chain, clear chn->binary, skip disabled chains, reset the chain position
to -1 around the driver call, stop at the first negative rc, count
successes, and report 0 when anything matched and 1 otherwise. -/
def safeprobeLoop (fn : ProbeFn) :
    List (Fin NCHAINS) → ProbeState → Nat → ProbeState × Int
  | [], pr, count => (pr, if count > 0 then 0 else 1)
  | i :: rest, pr, count =>
    let pr := { pr with cur_chain := some i }
    let pr := updChain pr i (fun chn => { chn with binary := false })
    if (pr.chains i).enabled = false then
      safeprobeLoop fn rest pr count
    else
      let pr := updChain pr i (fun chn => { chn with idx := -1 })
      let r := fn i pr
      let pr := updChain r.1 i (fun chn => { chn with idx := -1 })
      if r.2 < 0 then (pr, r.2)
      else safeprobeLoop fn rest pr (if r.2 = 0 then count + 1 else count)

/-- blkid_do_safeprobe: walk every chain in safeprobe mode; fn stands for
chn->driver->safeprobe. -/
def blkid_do_safeprobe (fn : ProbeFn) (pr : ProbeState) : ProbeState × Int :=
  if pr.noscan then (pr, 1)
  else
    let pr := blkid_probe_start pr
    let r := safeprobeLoop fn chainIndices pr 0
    (blkid_probe_end r.1, r.2)

/-- blkid_do_fullprobe: same walk, invoking chn->driver->probe (the abstract
fn) instead of chn->driver->safeprobe; the surrounding code is identical. -/
def blkid_do_fullprobe (fn : ProbeFn) (pr : ProbeState) : ProbeState × Int :=
  if pr.noscan then (pr, 1)
  else
    let pr := blkid_probe_start pr
    let r := safeprobeLoop fn chainIndices pr 0
    (blkid_probe_end r.1, r.2)

/-- blkid_probe_step_back: fail (none, the C -1) without a current chain;
otherwise free all cached buffers, decrement the current chain index when it
is non-negative, and when the index has become -1 move cur_chain to the
previous chain slot (chains[id - 1] when id - 1 > 0, NULL when id - 1 = 0,
because blkid_do_probe would otherwise skip past the chain whose idx is -1). -/
def blkid_probe_step_back (pr : ProbeState) : Option ProbeState :=
  match pr.cur_chain with
  | none => none
  | some c =>
    let pr := { pr with buffers := [] }
    let pr :=
      if 0 ≤ (pr.chains c).idx then
        updChain pr c (fun chn => { chn with idx := chn.idx - 1 })
      else pr
    let pr :=
      if (pr.chains c).idx = -1 then
        let idx := if (pr.chains c).id > 0 then (pr.chains c).id - 1 else 0
        if idx > 0 then
          if h : idx < NCHAINS then { pr with cur_chain := some ⟨idx, h⟩ } else pr
        else { pr with cur_chain := none }
      else pr
    some pr

/-- blkid_probe_is_wiped: report whether the off/size area lies wholly inside
the recorded wipe area, returning the chain that registered it (the C
function stores it through the chn out-parameter only on a hit). -/
def blkid_probe_is_wiped (pr : ProbeState) (off size : Nat) :
    Bool × Option (Fin NCHAINS) :=
  if size = 0 then (false, none)
  else if pr.wipe_off ≤ off ∧ off + size ≤ pr.wipe_off + pr.wipe_size then
    (true, pr.wipe_chain)
  else (false, none)

/-- blkid_probe_chain_reset_values: drop from the probing result every value
whose chain pointer equals chn. -/
def blkid_probe_chain_reset_values (pr : ProbeState) (chn : Fin NCHAINS) : ProbeState :=
  { pr with values := pr.values.filter (fun v => v.chain ≠ some chn) }

/-- blkid_probe_use_wiper: when the area was wiped by a known chain, zeroize
the wiper and reset that chain values. -/
def blkid_probe_use_wiper (pr : ProbeState) (off size : Nat) : ProbeState :=
  match blkid_probe_is_wiped pr off size with
  | (true, some chn) =>
      blkid_probe_chain_reset_values (blkid_probe_set_wiper pr 0 0) chn
  | _ => pr

/-- blkid_probe_set_value composed with blkid_probe_value_set_data: append a
value named name, tagged with the current chain, carrying data bytes of the
declared length (the C list_add_tail on pr->values). -/
def blkid_probe_set_value (pr : ProbeState) (name : String)
    (data : List Nat) (len : Nat) : ProbeState :=
  { pr with values :=
      pr.values ++ [{ name := name, chain := pr.cur_chain, data := data, len := len }] }

/-- blkid_probe_vsprintf_value with the vasprintf result supplied as the
already formatted byte string: an empty result frees the freshly appended
value again (net effect: unchanged list), otherwise the value stays with
len = strlen + 1. -/
def blkid_probe_sprintf_value (pr : ProbeState) (name : String)
    (data : List Nat) : ProbeState :=
  if data.length = 0 then pr
  else { pr with values :=
      pr.values ++ [{ name := name, chain := pr.cur_chain, data := data,
                      len := data.length + 1 }] }

/-- Decimal rendering of an offset, standing for the C "%llu" format. -/
def decimalBytes (n : Nat) : List Nat := (toString n).data.map Char.toNat

/-- blkid_probe_set_magic: record SBMAGIC/SBMAGIC_OFFSET (superblocks chain)
or PTMAGIC/PTMAGIC_OFFSET (partitions chain) when the chain asks for magic
reporting; a missing chain, empty magic, zero length or binary mode is a
no-op, as is any other chain id. -/
def blkid_probe_set_magic (pr : ProbeState) (offset : Nat)
    (len : Nat) (magic : List Nat) : ProbeState :=
  match pr.cur_chain with
  | none => pr
  | some c =>
    let chn := pr.chains c
    if magic = [] ∨ len = 0 ∨ chn.binary then pr
    else if chn.id = 0 then
      -- BLKID_CHAIN_SUBLKS
      if chn.magicFlag then
        blkid_probe_sprintf_value
          (blkid_probe_set_value pr "SBMAGIC" magic len)
          "SBMAGIC_OFFSET" (decimalBytes offset)
      else pr
    else if chn.id = 2 then
      -- BLKID_CHAIN_PARTS
      if chn.magicFlag then
        blkid_probe_sprintf_value
          (blkid_probe_set_value pr "PTMAGIC" magic len)
          "PTMAGIC_OFFSET" (decimalBytes offset)
      else pr
    else pr

/-! Buffer cache (blkid_probe_get_buffer) and the magic matcher
(blkid_probe_get_idmag).  The device content is a pure byte function; cached
buffers record the ranges held in memory, and a returned buffer is the
requested slice of the device (identical for a cache hit and for a fresh
read, since nothing writes to the device here).  The modelled prober is not
a clone (pr->parent == NULL), so the parent-forwarding branch of
blkid_probe_get_buffer never fires; the rejection checks verified below
precede that branch in the C code in any case. -/

/-- The errno value EINVAL. -/
def EINVAL : Nat := 22

def PROBE_MMAP_BEGINSIZ : Nat := 1024 * 1024 * 2
def PROBE_MMAP_ENDSIZ : Nat := 1024 * 1024 * 2
def PROBE_MMAP_MIDSIZ : Nat := 1024 * 1024

/-- Probing control fields used by the buffer layer: the probing window
(off, size), whether the device is a character device (mmap not wanted),
the mmap granularity (getpagesize(), a power of two), the cached ranges
and the device bytes. -/
structure BufProbe where
  off : Nat
  size : Nat
  mode_is_chr : Bool
  mmap_granularity : Nat
  buffers : List Bufinfo
  disk : Nat → Nat

/-- PROBE_ALIGN_OFF: o & ~(granularity - 1); for the power-of-two page
granularity this is rounding down to a multiple of the granularity. -/
def probeAlignOff (pr : BufProbe) (o : Nat) : Nat :=
  o - o % pr.mmap_granularity

/-- Addition as performed on uint64_t operands, wrapping modulo 2^64.  The
C buffer layer computes every sum of offsets, sizes and lengths in
uint64_t, so a sum that exceeds 2^64 wraps; this version of the code has
no overflow guard in front of the comparisons below. -/
def wrap64 (n : Nat) : Nat := n % 2 ^ 64

/-- Subtraction as performed on uint64_t operands, wrapping modulo 2^64. -/
def u64sub (a b : Nat) : Nat := (a + 2 ^ 64 - b % 2 ^ 64) % 2 ^ 64

/-- mmap_buffer region selection: ~2 MiB at the begin of the device, the
tail window at its end, or a >= 1 MiB page-aligned window in the middle,
clamped to the probing area.  All sums are uint64 sums. -/
def mmap_buffer (pr : BufProbe) (real_off len : Nat) : Bufinfo :=
  if real_off = 0 ∨ wrap64 (real_off + len) < PROBE_MMAP_BEGINSIZ then
    { off := 0, len := if PROBE_MMAP_BEGINSIZ > pr.size then pr.size else PROBE_MMAP_BEGINSIZ }
  else if u64sub (pr.off + pr.size) PROBE_MMAP_ENDSIZ < real_off then
    let map_off := probeAlignOff pr (u64sub (pr.off + pr.size) PROBE_MMAP_ENDSIZ)
    { off := map_off, len := u64sub (pr.off + pr.size) map_off }
  else
    let map_off := probeAlignOff pr real_off
    let minlen := u64sub (real_off + len) map_off
    let map_len := if minlen > PROBE_MMAP_MIDSIZ then minlen else PROBE_MMAP_MIDSIZ
    let map_len := if wrap64 (pr.off + pr.size) < wrap64 (map_off + map_len)
                   then u64sub pr.size map_off else map_len
    { off := map_off, len := map_len }

/-- read_buffer: seek + read exactly the requested range. -/
def read_buffer (real_off len : Nat) : Bufinfo :=
  { off := real_off, len := len }

/-- The len bytes of the device starting at absolute offset o. -/
def diskSlice (pr : BufProbe) (o n : Nat) : List Nat :=
  (List.range n).map (fun i => pr.disk (o + i))

/-- blkid_probe_get_buffer: reject an empty probing window with EINVAL;
reject a zero length or a request whose uint64 comparison
pr->off + pr->size < real_off + len detects it escaping the window, with
errno cleared to 0 (the C code logs "ignore: request out of probing area"
and returns NULL); otherwise serve from the first cached range containing
the request, or read the device (mmap_buffer / read_buffer) and append the
new range.  Every sum of uint64 operands is taken modulo 2^64 as in C, so
a request whose mathematical end escapes the window but whose 64-bit sum
wraps is accepted (this version of the code has no overflow guard; the
resulting C pointer is wild, modelled here as device bytes at the wrapped
offset).  The result pairs the outcome (error errno, or the requested
bytes) with the updated prober. -/
def blkid_probe_get_buffer (pr : BufProbe) (off len : Nat) :
    Except Nat (List Nat) × BufProbe :=
  let real_off := wrap64 (pr.off + off)
  if pr.size = 0 then (.error EINVAL, pr)
  else if len = 0 ∨ wrap64 (pr.off + pr.size) < wrap64 (real_off + len) then (.error 0, pr)
  else
    match pr.buffers.find? (fun x =>
        x.off ≤ real_off && wrap64 (real_off + len) ≤ wrap64 (x.off + x.len)) with
    | some _ => (.ok (diskSlice pr real_off len), pr)
    | none =>
      let bf := if pr.mode_is_chr then read_buffer real_off len
                else mmap_buffer pr real_off len
      (.ok (diskSlice pr real_off len), { pr with buffers := pr.buffers ++ [bf] })

def BLKID_PROBE_OK : Int := 0
def BLKID_PROBE_NONE : Int := 1

/-- One magic pattern (struct blkid_idmag): magic bytes (the C array is
NULL-terminated; entries in this list all have a magic string), compare
length, kibibyte offset, and offset within the kibibyte-aligned slot. -/
structure Idmag where
  magic : List Nat
  len : Nat
  kboff : Nat
  sboff : Nat
  deriving Repr, DecidableEq

/-- A signature descriptor (struct blkid_idinfo), restricted to the fields
the magic matcher reads. -/
structure Idinfo where
  name : String
  magics : List Idmag
  deriving Repr, DecidableEq

/-- The 1 KiB slot offset probed for a magic:
(mag->kboff + (mag->sboff >> 10)) << 10, a 64-bit computation stored in a
uint64_t. -/
def magSlotOff (mag : Idmag) : Nat :=
  wrap64 ((mag.kboff + mag.sboff / 1024) * 1024)

/-- memcmp(magic, buf + s, n) == 0. -/
def memcmpAt (magic buf : List Nat) (s n : Nat) : Bool :=
  (List.range n).all (fun i => magic.getD i 0 == buf.getD (s + i) 0)

/-- The while (mag && mag->magic) loop of blkid_probe_get_idmag: none means
the loop ran off the end of the magic array; some carries an early return
(rc, offset and matched magic out-parameters). -/
def getIdmagLoop (pr : BufProbe) :
    List Idmag → Option (Int × Option (Nat × Idmag)) × BufProbe
  | [] => (none, pr)
  | mag :: rest =>
    let off := magSlotOff mag
    match blkid_probe_get_buffer pr off 1024 with
    | (.error e, pr) =>
      if e ≠ 0 then (some (-(e : Int), none), pr)
      else getIdmagLoop pr rest
    | (.ok buf, pr) =>
      if memcmpAt mag.magic buf (mag.sboff % 1024) mag.len then
        (some (BLKID_PROBE_OK, some (wrap64 (off + mag.sboff % 1024), mag)), pr)
      else getIdmagLoop pr rest

/-- blkid_probe_get_idmag: try every magic pattern in array order; after an
exhausted loop report NONE when the descriptor declares magics and OK when
it declares none. -/
def blkid_probe_get_idmag (pr : BufProbe) (id : Idinfo) :
    Int × Option (Nat × Idmag) × BufProbe :=
  match getIdmagLoop pr id.magics with
  | (some (rc, res), pr) => (rc, res, pr)
  | (none, pr) =>
    if id.magics ≠ [] then (BLKID_PROBE_NONE, none, pr)
    else (BLKID_PROBE_OK, none, pr)

/-! Configuration reader (config.c).  A config line is modelled after the
read loop of parse_next has extracted it (newline and carriage return
stripped); blank and comment lines are consumed by that loop and never
reach the key dispatch modelled here. -/

/-- Evaluation methods (BLKID_EVAL_UDEV / BLKID_EVAL_SCAN). -/
inductive EvalMethod where
  | udev
  | scan
  deriving Repr, DecidableEq

/-- struct blkid_config: uevent is an int, -1 meaning unset, otherwise the C
TRUE (1) or FALSE (0). -/
structure BlkidConfig where
  uevent : Int
  cachefile : Option (List Char)
  nevals : Nat
  eval : List EvalMethod
  probeoff : Option (List (List Char))
  deriving Repr, DecidableEq

/-- strncmp(s, t, n) == 0 for NUL-free strings: the first n characters agree
(or the strings agree and are shorter than n). -/
def strncmpIsEq (s t : List Char) (n : Nat) : Bool :=
  s.take n == t.take n

/-- strcasecmp(s, t) == 0: equality up to ASCII case. -/
def strcasecmpIsEq (s t : List Char) : Bool :=
  s.map Char.toLower == t.map Char.toLower

/-- Modelled from the spec: strv_split (lib/strv.c, not part of the sources
here) splits a comma-separated value list. -/
def strvSplit (s : List Char) : List (List Char) :=
  s.splitOn ','

/-- The while loop of parse_evaluate, with fuel (each iteration consumes at
least one character; the caller passes length + 1 so the fuel never runs
out; exhausted fuel maps to the error result). -/
def parseEvaluateGo (fuel : Nat) (conf : BlkidConfig) (s : List Char) :
    Option BlkidConfig :=
  match fuel with
  | 0 => none
  | fuel + 1 =>
    if s = [] then some conf
    else if conf.nevals ≥ 2 then none
    else
      let seg := s.takeWhile (fun c => c ≠ ',')
      let hasSep := s.dropWhile (fun c => c ≠ ',') ≠ []
      let conf? : Option BlkidConfig :=
        if seg = "udev".data then
          some { conf with eval := conf.eval ++ [EvalMethod.udev], nevals := conf.nevals + 1 }
        else if seg = "scan".data then
          some { conf with eval := conf.eval ++ [EvalMethod.scan], nevals := conf.nevals + 1 }
        else none
      match conf? with
      | none => none
      | some conf =>
        if hasSep then
          parseEvaluateGo fuel conf ((s.dropWhile (fun c => c ≠ ',')).drop 1)
        else some conf

/-- parse_evaluate: walk the comma-separated method list, recording udev and
scan entries, capped at __BLKID_EVAL_LAST (2); anything else is an error
(none, the C -1). -/
def parse_evaluate (conf : BlkidConfig) (s : List Char) : Option BlkidConfig :=
  parseEvaluateGo (s.length + 1) conf s

/-- parse_probeoff: store the split name list. -/
def parse_probeoff (conf : BlkidConfig) (s : List Char) : BlkidConfig :=
  { conf with probeoff := some (strvSplit s) }

/-- The key dispatch of parse_next for one extracted non-blank non-comment
line: skip leading spaces and tabs, then match the recognized keys; an
unknown option is an error (none).  Note the C code skips 13 characters
after matching the 12 character key SEND_UEVENT= (s += 13), discarding the
first character of the value. -/
def parse_next_line (conf : BlkidConfig) (line : List Char) : Option BlkidConfig :=
  let s := line.dropWhile (fun c => c == ' ' || c == '\t')
  if strncmpIsEq s "SEND_UEVENT=".data 12 then
    let s := s.drop 13
    if s ≠ [] && strcasecmpIsEq s "yes".data then some { conf with uevent := 1 }
    else if s ≠ [] then some { conf with uevent := 0 }
    else some conf
  else if strncmpIsEq s "CACHE_FILE=".data 11 then
    let s := s.drop 11
    if s ≠ [] then some { conf with cachefile := some s } else some conf
  else if strncmpIsEq s "EVALUATE=".data 9 then
    let s := s.drop 9
    if s ≠ [] then parse_evaluate conf s else some conf
  else if strncmpIsEq s "PROBE_OFF=".data 10 then
    let s := s.drop 10
    if s ≠ [] then some (parse_probeoff conf s) else some conf
  else none

end Blkid

namespace Mnt

/-! Mount table lookup engine (libmount/src/tab.c).  The table is the
ordered entry list; the iterator directions map to the list and its
reverse.  The helpers living outside the given sources
(mnt_fs_streq_target, mnt_resolve_path, mnt_resolve_target,
mnt_fs_is_swaparea, mnt_fs_is_kernel) are modelled from the spec. -/

/-- MNT_ITER_FORWARD / MNT_ITER_BACKWARD. -/
inductive Direction where
  | forward
  | backward
  deriving Repr, DecidableEq

/-- One mount entry (struct libmnt_fs), restricted to what
mnt_table_find_target reads.  Modelled from the spec: mnt_fs_is_swaparea
and mnt_fs_is_kernel (fs.c is not among the sources) are entry attributes
here. -/
structure LibmntFs where
  target : Option String
  swaparea : Bool
  kernelfs : Bool
  deriving Repr, DecidableEq

/-- Modelled from the spec: the path cache (cache.c is not among the
sources) canonicalizes paths; mnt_resolve_path canonicalizes a
caller-supplied path and mnt_resolve_target an entry target (possibly
consulting the cached mtab targets), each possibly failing. -/
structure PathCache where
  resolve_path : String → Option String
  resolve_target : String → Option String

/-- struct libmnt_table: the ordered entry list plus the optional cache. -/
structure LibmntTable where
  ents : List LibmntFs
  cache : Option PathCache

/-- The entries in iteration order for a direction. -/
def tabList (tb : LibmntTable) (dir : Direction) : List LibmntFs :=
  match dir with
  | .forward => tb.ents
  | .backward => tb.ents.reverse

/-- Modelled from the spec: mnt_fs_streq_target byte-compares the entry
target with the path (false for an entry without target). -/
def fsStreqTarget (fs : LibmntFs) (path : String) : Bool :=
  fs.target == some path

/-- mnt_table_find_target: pass 1 compares native targets; with a cache and
a canonicalizable path, pass 2 compares the canonical path against native
targets and pass 3 against canonicalized targets, skipping swap areas,
kernel pseudo filesystems and the root target. -/
def mnt_table_find_target (tb : LibmntTable) (path : String) (dir : Direction) :
    Option LibmntFs :=
  if path = "" then none
  else
    match (tabList tb dir).find? (fun fs => fsStreqTarget fs path) with
    | some fs => some fs
    | none =>
      match tb.cache with
      | none => none
      | some cache =>
        match cache.resolve_path path with
        | none => none
        | some cn =>
          match (tabList tb dir).find? (fun fs => fsStreqTarget fs cn) with
          | some fs => some fs
          | none =>
            (tabList tb dir).find? (fun fs =>
              match fs.target with
              | none => false
              | some t =>
                if fs.swaparea || fs.kernelfs || t == "/" then false
                else
                  match cache.resolve_target t with
                  | some p => p == cn
                  | none => false)

end Mnt

namespace Blkid

/-! Derived notions used by the theorem statements. -/

/-- The chain-advance condition of the blkid_do_probe loop: the previous
probing returned nothing and the current chain is disabled, exhausted, or
bailed out right at the start. -/
def advanceCond (pr : ProbeState) (c : Fin NCHAINS) (rc : Int) : Prop :=
  rc = 1 ∧ ((pr.chains c).enabled = false ∨
            (pr.chains c).idx + 1 = ((pr.chains c).nidinfos : Int) ∨
            (pr.chains c).idx = -1)

instance (pr : ProbeState) (c : Fin NCHAINS) (rc : Int) :
    Decidable (advanceCond pr c rc) := by
  unfold advanceCond; infer_instance

/-- A magic pattern hits on the device: the 1 KiB buffer at its slot
exists (the uint64 window comparison of blkid_probe_get_buffer accepts the
request) and the magic bytes equal the device bytes at
slot_off + (sboff mod 1024). -/
def magMatches (pr : BufProbe) (mag : Idmag) : Bool :=
  (decide (wrap64 (wrap64 (pr.off + magSlotOff mag) + 1024) ≤ wrap64 (pr.off + pr.size))) &&
  memcmpAt mag.magic (diskSlice pr (wrap64 (pr.off + magSlotOff mag)) 1024)
    (mag.sboff % 1024) mag.len

/-- Aggregation performed by the do_safeprobe / do_fullprobe chain walk over
the rc codes of the enabled chains: the first negative code wins, otherwise
0 when any chain succeeded and 1 when none did. -/
def safeprobeAgg : List Int → Nat → Int
  | [], count => if count > 0 then 0 else 1
  | r :: rest, count =>
    if r < 0 then r
    else safeprobeAgg rest (if r = 0 then count + 1 else count)

/-- The value-producing operations of the tag interface. -/
inductive ValOp where
  | setVal (name : String) (data : List Nat) (len : Nat)
  | sprintfVal (name : String) (data : List Nat)
  | setMagic (offset : Nat) (len : Nat) (magic : List Nat)
  deriving Repr, DecidableEq

/-- Apply one value-producing operation. -/
def applyValOp (pr : ProbeState) : ValOp → ProbeState
  | .setVal n d l => blkid_probe_set_value pr n d l
  | .sprintfVal n d => blkid_probe_sprintf_value pr n d
  | .setMagic off l m => blkid_probe_set_magic pr off l m

/-- Run a sequence of value-producing operations. -/
def runValOps (pr : ProbeState) (ops : List ValOp) : ProbeState :=
  ops.foldl applyValOp pr

/-- The (chain, name) pairs an operation appends to the value list, in
order, given the probing context (current chain, chain flags). -/
def valOpNames (pr : ProbeState) : ValOp → List (Option (Fin NCHAINS) × String)
  | .setVal n _ _ => [(pr.cur_chain, n)]
  | .sprintfVal n d => if d.length = 0 then [] else [(pr.cur_chain, n)]
  | .setMagic off l m =>
    match pr.cur_chain with
    | none => []
    | some c =>
      let chn := pr.chains c
      if m = [] ∨ l = 0 ∨ chn.binary then []
      else if chn.id = 0 then
        if chn.magicFlag then
          (pr.cur_chain, "SBMAGIC") ::
            (if (decimalBytes off).length = 0 then [] else [(pr.cur_chain, "SBMAGIC_OFFSET")])
        else []
      else if chn.id = 2 then
        if chn.magicFlag then
          (pr.cur_chain, "PTMAGIC") ::
            (if (decimalBytes off).length = 0 then [] else [(pr.cur_chain, "PTMAGIC_OFFSET")])
        else []
      else []

/-- The claimed value-list invariant: at most one value per (chain, name)
pair. -/
def uniquePerChainName (vs : List PrVal) : Prop :=
  vs.Pairwise (fun a b => ¬ (a.chain = b.chain ∧ a.name = b.name))

instance (vs : List PrVal) : Decidable (uniquePerChainName vs) := by
  unfold uniquePerChainName; infer_instance

/-- A default chain record for concrete probe states. -/
def sampleChain (i : Nat) : Chain :=
  { id := i, enabled := true, idx := -1, nidinfos := 4, binary := false, magicFlag := true }

/-- A concrete probe state: three enabled chains, nothing probed yet. -/
def samplePr : ProbeState :=
  { chains := fun i => sampleChain i.val, cur_chain := none, noscan := false,
    prob_flags := 0, wipe_off := 0, wipe_size := 0, wipe_chain := none,
    buffers := [], values := [] }

/-- A driver callback that changes nothing and reports no result. -/
def fnOne : ProbeFn := fun _ q => (q, 1)

/-- A driver callback whose reported rc depends only on the chain: no
result for chain 0, ambivalent for chain 1, success for chain 2. -/
def fnRcs : ProbeFn :=
  fun i q => (q, if i.val = 0 then 1 else if i.val = 1 then -2 else 0)

/-- The rc codes reported by fnRcs. -/
def rcsW : Fin NCHAINS → Int :=
  fun i => if i.val = 0 then 1 else if i.val = 1 then -2 else 0

/-- A concrete probe state whose current chain is the last one, positioned
before its first descriptor. -/
def prC1 : ProbeState := { samplePr with cur_chain := some ⟨2, by decide⟩ }

/-- A concrete probe state sitting at the first descriptor of the second
chain, with one cached buffer. -/
def prC5 : ProbeState :=
  { samplePr with
    cur_chain := some ⟨1, by decide⟩,
    chains := fun i => { sampleChain i.val with idx := 0 },
    buffers := [{ off := 0, len := 512 }] }

/-- A concrete buffer-layer prober over a zero-filled 4 KiB window. -/
def sampleBufPr : BufProbe :=
  { off := 0, size := 4096, mode_is_chr := false, mmap_granularity := 4096,
    buffers := [], disk := fun _ => 0 }

/-- A concrete device carrying the ext-style two magic bytes at offset
1080. -/
def extDisk : Nat → Nat :=
  fun n => if n = 1080 then 0x53 else if n = 1081 then 0xef else 0

/-- The buffer-layer prober over that device. -/
def extBufPr : BufProbe :=
  { off := 0, size := 4096, mode_is_chr := false, mmap_granularity := 4096,
    buffers := [], disk := extDisk }

/-- A magic pattern that does not occur on extDisk. -/
def magMiss : Idmag := { magic := [0xaa, 0xbb], len := 2, kboff := 0, sboff := 0 }

/-- The ext-style magic pattern: kboff 1, sboff 56, so the probed slot is
1024 and the effective offset 1080. -/
def magHit : Idmag := { magic := [0x53, 0xef], len := 2, kboff := 1, sboff := 56 }

/-- A descriptor carrying both magic patterns, the missing one first. -/
def idExt : Idinfo := { name := "ext4", magics := [magMiss, magHit] }

/-- An empty configuration as built by blkid_read_config before parsing:
uevent unset (-1). -/
def confInit : BlkidConfig :=
  { uevent := -1, cachefile := none, nevals := 0, eval := [], probeoff := none }

end Blkid

namespace Mnt

/-! The three lookup passes of mnt_table_find_target as the specification
describes them, used to state the refinement theorem. -/

/-- Pass 1: byte-compare each entry native target to the path. -/
def findTargetPass1 (tb : LibmntTable) (path : String) (dir : Direction) :
    Option LibmntFs :=
  (tabList tb dir).find? (fun fs => fsStreqTarget fs path)

/-- Pass 2: byte-compare each entry native target to the canonicalized
path. -/
def findTargetPass2 (tb : LibmntTable) (cn : String) (dir : Direction) :
    Option LibmntFs :=
  (tabList tb dir).find? (fun fs => fsStreqTarget fs cn)

/-- Pass 3: canonicalize each entry target as well and compare it to the
canonicalized path, skipping swap areas, kernel pseudo filesystems, and
entries whose target is the root. -/
def findTargetPass3 (tb : LibmntTable) (cache : PathCache) (cn : String)
    (dir : Direction) : Option LibmntFs :=
  (tabList tb dir).find? (fun fs =>
    match fs.target with
    | none => false
    | some t =>
      if fs.swaparea || fs.kernelfs || t == "/" then false
      else
        match cache.resolve_target t with
        | some p => p == cn
        | none => false)

/-- The claim-level description of mnt_table_find_target: three passes in
order, the first hit wins; passes 2 and 3 run only when a cache is set and
the path canonicalizes. -/
def findTargetSpec (tb : LibmntTable) (path : String) (dir : Direction) :
    Option LibmntFs :=
  if path = "" then none
  else
    match findTargetPass1 tb path dir with
    | some fs => some fs
    | none =>
      match tb.cache with
      | none => none
      | some cache =>
        match cache.resolve_path path with
        | none => none
        | some cn =>
          match findTargetPass2 tb cn dir with
          | some fs => some fs
          | none => findTargetPass3 tb cache cn dir

end Mnt

namespace Blkid

/-! Helper lemmas about the buffer layer. -/

/-- A zero-length request, or one whose uint64 window comparison detects
it escaping the window, is rejected with errno cleared and the prober
untouched, provided the window is non-empty. -/
theorem getBufferOutOfArea (pr : BufProbe) (off len : Nat) (hsz : 0 < pr.size)
    (h : len = 0 ∨ wrap64 (pr.off + pr.size) < wrap64 (wrap64 (pr.off + off) + len)) :
    blkid_probe_get_buffer pr off len = (.error 0, pr) := by
  unfold blkid_probe_get_buffer
  rw [if_neg (by omega), if_pos h]

/-- A request of positive length that the uint64 window comparison accepts
returns the requested slice of the device at the wrapped offset. -/
theorem getBufferOk (pr : BufProbe) (off len : Nat) (hsz : 0 < pr.size)
    (hlen : len ≠ 0)
    (hin : wrap64 (wrap64 (pr.off + off) + len) ≤ wrap64 (pr.off + pr.size)) :
    (blkid_probe_get_buffer pr off len).1 =
      .ok (diskSlice pr (wrap64 (pr.off + off)) len) := by
  unfold blkid_probe_get_buffer
  rw [if_neg (by omega), if_neg (not_or.mpr ⟨hlen, not_lt.mpr hin⟩)]
  cases pr.buffers.find? (fun x =>
      x.off ≤ wrap64 (pr.off + off) &&
      wrap64 (wrap64 (pr.off + off) + len) ≤ wrap64 (x.off + x.len)) <;>
    rfl

/-- blkid_probe_get_buffer either keeps the prober or appends one cached
range. -/
theorem getBufferSnd (pr : BufProbe) (off len : Nat) :
    (blkid_probe_get_buffer pr off len).2 = pr ∨
    ∃ bf, (blkid_probe_get_buffer pr off len).2 =
      { pr with buffers := pr.buffers ++ [bf] } := by
  unfold blkid_probe_get_buffer
  dsimp only
  split
  · exact Or.inl rfl
  · split
    · exact Or.inl rfl
    · split
      · exact Or.inl rfl
      · exact Or.inr ⟨_, rfl⟩

/-- blkid_probe_get_buffer never changes the probing window or the device
content, only the cached-range list. -/
theorem getBufferSameGeom (pr : BufProbe) (off len : Nat) :
    (blkid_probe_get_buffer pr off len).2.off = pr.off ∧
    (blkid_probe_get_buffer pr off len).2.size = pr.size ∧
    (blkid_probe_get_buffer pr off len).2.disk = pr.disk := by
  rcases getBufferSnd pr off len with h | ⟨bf, h⟩ <;> rw [h] <;> exact ⟨rfl, rfl, rfl⟩

/-- C10: for a prober whose device was flagged no-scan when it was assigned
(the BLKID_FL_NOSCAN_DEV flag, set for private LVM devices by
blkid_probe_set_device), each of blkid_do_probe, blkid_do_safeprobe and
blkid_do_fullprobe returns 1 immediately with the prober state untouched
(hence without invoking any chain probe callback, the driver callback fn
being arbitrary, and with the value list left exactly as it was, empty when
it was empty). -/
theorem noscan_short_circuits (fn : ProbeFn) (fuel : Nat) (pr : ProbeState)
    (h : pr.noscan = true) :
    blkid_do_probe fn fuel pr = some (pr, 1) ∧
    blkid_do_safeprobe fn pr = (pr, 1) ∧
    blkid_do_fullprobe fn pr = (pr, 1) := by
  refine ⟨?_, ?_, ?_⟩ <;>
    simp [blkid_do_probe, blkid_do_safeprobe, blkid_do_fullprobe, h]

/-- Witness for C10 at a concrete no-scan prober and a concrete callback. -/
theorem noscan_short_circuits_witness :
    blkid_do_probe fnOne 4 { samplePr with noscan := true } =
      some ({ samplePr with noscan := true }, 1) ∧
    blkid_do_safeprobe fnOne { samplePr with noscan := true } =
      ({ samplePr with noscan := true }, 1) ∧
    blkid_do_fullprobe fnOne { samplePr with noscan := true } =
      ({ samplePr with noscan := true }, 1) :=
  noscan_short_circuits fnOne 4 { samplePr with noscan := true } rfl

/-- C4 counterexample: with a non-empty probing window, a zero-length
request does fail, but with errno cleared to 0, not with EINVAL as the
claim states. -/
theorem get_buffer_no_einval :
    (blkid_probe_get_buffer sampleBufPr 0 0).1 = .error 0 ∧
    (blkid_probe_get_buffer sampleBufPr 0 0).1 ≠ .error EINVAL := by
  constructor
  · rfl
  · intro h
    rw [show (blkid_probe_get_buffer sampleBufPr 0 0).1 = .error 0 from rfl] at h
    exact absurd h (by simp [EINVAL])

/-- The rejection comparison is the uint64 one, so a request whose
mathematical range escapes the window but whose 64-bit end wraps is
accepted and served: with the (0, 4096) window of sampleBufPr, the request
off = 2^64 - 1024, len = 2048 passes the check (4096 < 1024 is false) and
returns a buffer, reproducing the wild C pointer of this unguarded
version. -/
theorem getBufferWrapAccepted :
    (blkid_probe_get_buffer sampleBufPr (2 ^ 64 - 1024) 2048).1 =
      .ok (diskSlice sampleBufPr (2 ^ 64 - 1024) 2048) := by
  rfl

/-- C4 (amended): for a prober with a non-empty probing window, a request
with zero length, or whose uint64 window comparison
pr->off + pr->size < (pr->off + off) + len (every sum taken modulo 2^64)
detects the range escaping the window, is rejected with errno cleared to 0
(the invalid-argument errno EINVAL is reserved for an empty window), and
no buffer is allocated or returned: the prober comes back unchanged.
Because the comparison wraps, a request escaping the window mathematically
but whose 64-bit end wraps is not rejected (see getBufferWrapAccepted). -/
theorem get_buffer_reject (pr : BufProbe) (off len : Nat) (hsz : 0 < pr.size)
    (h : len = 0 ∨ wrap64 (pr.off + pr.size) < wrap64 (wrap64 (pr.off + off) + len)) :
    blkid_probe_get_buffer pr off len = (.error 0, pr) :=
  getBufferOutOfArea pr off len hsz h

/-- Witness for C4 at a concrete prober, a concrete zero-length request
and a concrete out-of-window request (offset 8192 in the (0, 4096)
window, where the uint64 comparison does not wrap). -/
theorem get_buffer_reject_witness :
    blkid_probe_get_buffer sampleBufPr 5 0 = (.error 0, sampleBufPr) ∧
    blkid_probe_get_buffer sampleBufPr 8192 512 = (.error 0, sampleBufPr) :=
  ⟨get_buffer_reject sampleBufPr 5 0 (by decide) (Or.inl rfl),
   get_buffer_reject sampleBufPr 8192 512 (by decide) (Or.inr (by decide))⟩

/-- C6: when the off/size area of a later match lies wholly inside the
registered wipe area (size positive), blkid_probe_use_wiper zeroizes the
wipe record and removes exactly the values owned by the chain that
registered the wipe; when the area is not wholly contained, the prober is
unchanged. -/
theorem use_wiper_spec (pr : ProbeState) (off size : Nat) (chn : Fin NCHAINS) :
    (0 < size → pr.wipe_chain = some chn →
      pr.wipe_off ≤ off → off + size ≤ pr.wipe_off + pr.wipe_size →
      blkid_probe_use_wiper pr off size =
        { pr with wipe_off := 0, wipe_size := 0, wipe_chain := none,
                  values := pr.values.filter (fun v => v.chain ≠ some chn) }) ∧
    (¬ (pr.wipe_off ≤ off ∧ off + size ≤ pr.wipe_off + pr.wipe_size) →
      blkid_probe_use_wiper pr off size = pr) := by
  constructor
  · intro h1 h2 h3 h4
    unfold blkid_probe_use_wiper blkid_probe_is_wiped
    rw [if_neg (by omega), if_pos ⟨h3, h4⟩, h2]
    unfold blkid_probe_chain_reset_values blkid_probe_set_wiper
    rw [if_pos rfl]
  · intro hnc
    unfold blkid_probe_use_wiper blkid_probe_is_wiped
    by_cases hs : size = 0
    · rw [if_pos hs]
    · rw [if_neg hs, if_neg hnc]

/-- Witness for C6 at a concrete prober whose superblocks chain registered
an 8 KiB wipe area, with a later 512-byte match at offset 0. -/
theorem use_wiper_spec_witness :
    blkid_probe_use_wiper
      { samplePr with wipe_size := 8192, wipe_chain := some ⟨0, by decide⟩,
                      values := [
        { name := "TYPE", chain := some ⟨0, by decide⟩, data := [1], len := 1 },
        { name := "PTTYPE", chain := some ⟨2, by decide⟩, data := [2], len := 1 }] }
      0 512 =
    { samplePr with wipe_off := 0, wipe_size := 0, wipe_chain := none,
                    values := [
        { name := "PTTYPE", chain := some ⟨2, by decide⟩, data := [2], len := 1 }] } := by
  have h := (use_wiper_spec
      { samplePr with wipe_size := 8192, wipe_chain := some ⟨0, by decide⟩,
                      values := [
        { name := "TYPE", chain := some ⟨0, by decide⟩, data := [1], len := 1 },
        { name := "PTTYPE", chain := some ⟨2, by decide⟩, data := [2], len := 1 }] }
      0 512 ⟨0, by decide⟩).1 (by decide) rfl (by decide) (by decide)
  simpa using h

/-- getIdmagLoop is the first-match search over the magic array: with a
non-empty window it returns the first pattern of the list whose 1 KiB
buffer exists (the uint64 window comparison accepts the slot) and whose
bytes match the device, together with the effective offset, and none when
no pattern matches. -/
theorem getIdmagLoopSpec (pr0 : BufProbe) (hsz : 0 < pr0.size) :
    ∀ (l : List Idmag) (pr : BufProbe),
      pr.off = pr0.off → pr.size = pr0.size → pr.disk = pr0.disk →
      (getIdmagLoop pr l).1 =
        (l.find? (magMatches pr0)).map
          (fun m => (BLKID_PROBE_OK, some (wrap64 (magSlotOff m + m.sboff % 1024), m))) := by
  intro l
  induction l with
  | nil => intro pr h1 h2 h3; rfl
  | cons mag rest ih =>
    intro pr h1 h2 h3
    have hsz2 : 0 < pr.size := h2 ▸ hsz
    by_cases hin :
        wrap64 (wrap64 (pr.off + magSlotOff mag) + 1024) ≤ wrap64 (pr.off + pr.size)
    · rcases hgb : blkid_probe_get_buffer pr (magSlotOff mag) 1024 with ⟨res, pr2⟩
      have hok := getBufferOk pr (magSlotOff mag) 1024 hsz2 (by decide) hin
      rw [hgb] at hok
      dsimp only at hok
      have hg := getBufferSameGeom pr (magSlotOff mag) 1024
      rw [hgb] at hg
      dsimp only at hg
      have hwin0 :
          wrap64 (wrap64 (pr0.off + magSlotOff mag) + 1024) ≤ wrap64 (pr0.off + pr0.size) := by
        rw [← h1, ← h2]; exact hin
      have hdisk : diskSlice pr0 (wrap64 (pr0.off + magSlotOff mag)) 1024 =
          diskSlice pr (wrap64 (pr.off + magSlotOff mag)) 1024 := by
        unfold diskSlice; rw [h1, h3]
      have hmm : magMatches pr0 mag =
          memcmpAt mag.magic (diskSlice pr (wrap64 (pr.off + magSlotOff mag)) 1024)
            (mag.sboff % 1024) mag.len := by
        unfold magMatches
        rw [← hdisk, decide_eq_true hwin0, Bool.true_and]
      unfold getIdmagLoop
      dsimp only
      rw [hgb, hok]
      dsimp only
      by_cases hcmp : memcmpAt mag.magic (diskSlice pr (wrap64 (pr.off + magSlotOff mag)) 1024)
          (mag.sboff % 1024) mag.len = true
      · rw [if_pos hcmp, List.find?_cons_of_pos _ (hmm.trans hcmp)]
        rfl
      · rw [if_neg hcmp,
            List.find?_cons_of_neg _ (by rw [hmm]; exact hcmp)]
        exact ih pr2 (hg.1.trans h1) (hg.2.1.trans h2) (hg.2.2.trans h3)
    · have hout :
          wrap64 (pr.off + pr.size) < wrap64 (wrap64 (pr.off + magSlotOff mag) + 1024) :=
        not_le.mp hin
      have hob := getBufferOutOfArea pr (magSlotOff mag) 1024 hsz2 (Or.inr hout)
      have hmm : magMatches pr0 mag = false := by
        unfold magMatches
        rw [decide_eq_false (by rw [h1, h2] at hin; exact hin), Bool.false_and]
      unfold getIdmagLoop
      dsimp only
      rw [hob]
      dsimp only
      rw [if_neg (by decide), List.find?_cons_of_neg _ (by rw [hmm]; exact Bool.false_ne_true)]
      exact ih pr h1 h2 h3

/-- updChain leaves the enabled flag of every chain unchanged when the
update function does. -/
theorem updChain_enabled (pr : ProbeState) (c : Fin NCHAINS) (f : Chain → Chain)
    (hf : ∀ ch, (f ch).enabled = ch.enabled) (j : Fin NCHAINS) :
    ((updChain pr c f).chains j).enabled = (pr.chains j).enabled := by
  unfold updChain
  dsimp only
  by_cases h : j = c
  · subst h
    rw [Function.update_same]
    exact hf _
  · rw [Function.update_noteq h]

/-- The safeprobe chain walk computes exactly the safeprobeAgg aggregate of
the rc codes of the enabled chains, provided the driver callback reports an
rc depending only on the chain and does not flip enabled flags. -/
theorem safeprobeLoopSpec (fn : ProbeFn) (rcs : Fin NCHAINS → Int)
    (hrc : ∀ i q, (fn i q).2 = rcs i)
    (hen : ∀ i q j, ((fn i q).1.chains j).enabled = (q.chains j).enabled) :
    ∀ (l : List (Fin NCHAINS)) (pr : ProbeState) (count : Nat),
      (safeprobeLoop fn l pr count).2 =
        safeprobeAgg ((l.filter (fun i => (pr.chains i).enabled)).map rcs) count := by
  intro l
  induction l with
  | nil => intro pr count; rfl
  | cons i rest ih =>
    intro pr count
    unfold safeprobeLoop
    dsimp only
    have e1 : ∀ j, ((updChain { pr with cur_chain := some i } i
        (fun chn => { chn with binary := false })).chains j).enabled
        = (pr.chains j).enabled :=
      fun j => updChain_enabled { pr with cur_chain := some i } i
        (fun chn => { chn with binary := false }) (fun _ => rfl) j
    rw [e1 i]
    cases he : (pr.chains i).enabled with
    | false =>
      rw [if_pos rfl]
      rw [ih]
      rw [List.filter_congr (fun a _ => by rw [e1 a])]
      rw [List.filter_cons_of_neg (by rw [he]; exact Bool.false_ne_true)]
    | true =>
      rw [if_neg (by simp)]
      set p3 := updChain (updChain { pr with cur_chain := some i } i
        (fun chn => { chn with binary := false })) i
        (fun chn => { chn with idx := -1 }) with hp3
      have e2 : ∀ j, (p3.chains j).enabled = (pr.chains j).enabled :=
        fun j => (updChain_enabled
          (updChain { pr with cur_chain := some i } i
            (fun chn => { chn with binary := false })) i
          (fun chn => { chn with idx := -1 }) (fun _ => rfl) j).trans (e1 j)
      have hr2 : (fn i p3).2 = rcs i := hrc i p3
      rw [hr2]
      have e3 : ∀ j, ((updChain (fn i p3).1 i
          (fun chn => { chn with idx := -1 })).chains j).enabled
          = (pr.chains j).enabled :=
        fun j => (updChain_enabled (fn i p3).1 i
          (fun chn => { chn with idx := -1 }) (fun _ => rfl) j).trans
          (((hen i p3 j)).trans (e2 j))
      rw [List.filter_cons_of_pos (by rw [he])]
      rw [List.map_cons]
      unfold safeprobeAgg
      by_cases hneg : rcs i < 0
      · rw [if_pos hneg, if_pos hneg]
      · rw [if_neg hneg, if_neg hneg]
        rw [ih]
        rw [List.filter_congr (fun a _ => by rw [e3 a])]

/-- Chain selection when the advance condition holds at the last chain:
there is no next chain. -/
theorem doProbeSelect_end (pr : ProbeState) (rc : Int) (c : Fin NCHAINS)
    (hcur : pr.cur_chain = some c) (hid : (pr.chains c).id = c.val)
    (hadv : advanceCond pr c rc) (hlast : c.val + 1 = NCHAINS) :
    doProbeSelect pr rc = none := by
  unfold advanceCond at hadv
  unfold doProbeSelect
  rw [hcur]
  dsimp only
  rw [if_pos hadv]
  rw [dif_neg (by rw [hid]; omega)]

/-- Chain selection when the advance condition holds and a next chain
exists: move to the chain at slot id + 1. -/
theorem doProbeSelect_next (pr : ProbeState) (rc : Int) (c : Fin NCHAINS)
    (hcur : pr.cur_chain = some c) (hid : (pr.chains c).id = c.val)
    (hadv : advanceCond pr c rc) (h : c.val + 1 < NCHAINS) :
    doProbeSelect pr rc =
      some ({ pr with cur_chain := some ⟨c.val + 1, h⟩ }, ⟨c.val + 1, h⟩) := by
  unfold advanceCond at hadv
  unfold doProbeSelect
  rw [hcur]
  dsimp only
  rw [if_pos hadv]
  rw [dif_pos (by rw [hid]; exact h)]
  simp [hid]

/-- Chain selection when the advance condition fails: stay on the current
chain. -/
theorem doProbeSelect_stay (pr : ProbeState) (rc : Int) (c : Fin NCHAINS)
    (hcur : pr.cur_chain = some c) (hnadv : ¬ advanceCond pr c rc) :
    doProbeSelect pr rc = some (pr, c) := by
  unfold advanceCond at hnadv
  unfold doProbeSelect
  rw [hcur]
  dsimp only
  rw [if_neg hnadv]

/-- The do_probe loop reports 1 only after ending the probe: the returned
state has no current chain and no wiper. -/
theorem doProbeLoop_done (fn : ProbeFn) :
    ∀ (fuel : Nat) (pr : ProbeState) (rc : Int) (pr2 : ProbeState),
      doProbeLoop fn fuel pr rc = some (pr2, 1) →
      pr2.cur_chain = none ∧ pr2.wipe_chain = none := by
  intro fuel
  induction fuel with
  | zero =>
    intro pr rc pr2 h
    exact absurd h (by simp [doProbeLoop])
  | succ fuel ih =>
    intro pr rc pr2 h
    unfold doProbeLoop at h
    rcases hsel : doProbeSelect pr rc with _ | ⟨pr1, c⟩
    · rw [hsel] at h
      dsimp only at h
      simp only [Option.some.injEq, Prod.mk.injEq] at h
      rw [← h.1]
      exact ⟨rfl, rfl⟩
    · rw [hsel] at h
      unfold doProbeCont at h
      dsimp only at h
      split_ifs at h with h1 h2 h3
      · exact ih _ _ _ h
      · simp only [Option.some.injEq, Prod.mk.injEq] at h
        exact absurd h.2 h2
      · exact ih _ _ _ h
      · simp only [Option.some.injEq, Prod.mk.injEq] at h
        exact absurd h.2 h3

/-- C1: blkid_do_probe implements one-match-per-call iteration over the
chain and descriptor matrix.  In a loop iteration with a current chain c:
(1/2) the loop advances to the next chain exactly when the previous probing
returned none (rc = 1) and c is disabled, or its idx + 1 equals its
descriptor count, or its idx is -1 (the advanceCond); when there is no
next chain the probe ends and 1 is returned, otherwise the iteration
continues on the next chain; (3) without the advance condition the
iteration continues on c itself; (4) continuing on an enabled chain
invokes its probe callback and returns its result when it is not 1 (and
loops on when it is); (5) blkid_do_probe returns 1 only when all chains
are exhausted: the final state has been through blkid_probe_end and has no
current chain. -/
theorem do_probe_iteration (fn : ProbeFn) (fuel : Nat) (pr : ProbeState) (rc : Int)
    (c : Fin NCHAINS) (hcur : pr.cur_chain = some c) (hid : (pr.chains c).id = c.val) :
    (advanceCond pr c rc → c.val + 1 = NCHAINS →
       doProbeLoop fn (fuel + 1) pr rc = some (blkid_probe_end pr, 1)) ∧
    (advanceCond pr c rc → ∀ h : c.val + 1 < NCHAINS,
       doProbeLoop fn (fuel + 1) pr rc =
         doProbeCont fn (doProbeLoop fn fuel)
           { pr with cur_chain := some ⟨c.val + 1, h⟩ } ⟨c.val + 1, h⟩ rc) ∧
    (¬ advanceCond pr c rc →
       doProbeLoop fn (fuel + 1) pr rc = doProbeCont fn (doProbeLoop fn fuel) pr c rc) ∧
    (∀ (q : ProbeState) (d : Fin NCHAINS), (q.chains d).enabled = true →
       ((fn d (updChain q d (fun chn => { chn with binary := false }))).2 ≠ 1 →
          doProbeCont fn (doProbeLoop fn fuel) q d rc =
            some (fn d (updChain q d (fun chn => { chn with binary := false })))) ∧
       ((fn d (updChain q d (fun chn => { chn with binary := false }))).2 = 1 →
          doProbeCont fn (doProbeLoop fn fuel) q d rc =
            doProbeLoop fn fuel
              (fn d (updChain q d (fun chn => { chn with binary := false }))).1 1)) ∧
    (∀ (pr0 pr2 : ProbeState) (fuel0 : Nat), pr0.noscan = false →
       blkid_do_probe fn fuel0 pr0 = some (pr2, 1) → pr2.cur_chain = none) := by
  refine ⟨?_, ?_, ?_, ?_, ?_⟩
  · intro hadv hlast
    unfold doProbeLoop
    rw [doProbeSelect_end pr rc c hcur hid hadv hlast]
  · intro hadv h
    unfold doProbeLoop
    rw [doProbeSelect_next pr rc c hcur hid hadv h]
  · intro hnadv
    unfold doProbeLoop
    rw [doProbeSelect_stay pr rc c hcur hnadv]
  · intro q d hen
    have hq : ((updChain q d (fun chn => { chn with binary := false })).chains d).enabled
        = true :=
      (updChain_enabled q d (fun chn => { chn with binary := false }) (fun _ => rfl) d).trans hen
    constructor
    · intro hr
      unfold doProbeCont
      dsimp only
      rw [hq]
      rw [if_neg (by simp)]
      rw [if_neg hr]
    · intro hr
      unfold doProbeCont
      dsimp only
      rw [hq]
      rw [if_neg (by simp)]
      rw [if_pos hr, hr]
  · intro pr0 pr2 fuel0 hns hdp
    unfold blkid_do_probe at hdp
    rw [hns] at hdp
    simp only [Bool.false_eq_true, if_false] at hdp
    exact (doProbeLoop_done fn fuel0 pr0 1 pr2 hdp).1

/-- Witness for C1 at the concrete prober prC1 (current chain is the last
chain, idx -1, so the advance condition holds and the probe ends with 1). -/
theorem do_probe_iteration_witness :
    doProbeLoop fnOne 1 prC1 1 = some (blkid_probe_end prC1, 1) :=
  (do_probe_iteration fnOne 0 prC1 1 ⟨2, by decide⟩ rfl rfl).1 (by decide) rfl

/-- C3: blkid_do_safeprobe visits every enabled chain (disabled chains are
skipped; each enabled chain is run from position -1, the reset being built
into the walk) and aggregates: the first chain whose safeprobe callback
reports a negative code (-1 error or -2 ambivalent) short-circuits the walk
and that code is returned, otherwise 0 is returned when at least one
enabled chain matched and 1 when none did. -/
theorem do_safeprobe_spec (fn : ProbeFn) (pr : ProbeState) (rcs : Fin NCHAINS → Int)
    (hrc : ∀ i q, (fn i q).2 = rcs i)
    (hen : ∀ i q j, ((fn i q).1.chains j).enabled = (q.chains j).enabled)
    (hno : pr.noscan = false) :
    (blkid_do_safeprobe fn pr).2 =
      safeprobeAgg ((chainIndices.filter (fun i => (pr.chains i).enabled)).map rcs) 0 := by
  unfold blkid_do_safeprobe
  rw [hno]
  dsimp only
  exact safeprobeLoopSpec fn rcs hrc hen chainIndices (blkid_probe_start pr) 0

/-- Witness for C3 at a concrete prober with all chains enabled and a
callback reporting none/ambivalent/success for chains 0/1/2: the ambivalent
-2 of chain 1 short-circuits the walk. -/
theorem do_safeprobe_spec_witness :
    (blkid_do_safeprobe fnRcs samplePr).2 = -2 :=
  (do_safeprobe_spec fnRcs samplePr rcsW (fun _ _ => rfl) (fun _ _ _ => rfl) rfl).trans
    (by decide)

/-- C2: the magic matcher walks the magic patterns in array order; for each
it probes the 1 KiB slot at (kboff + (sboff >> 10)) << 10 and reports a
match at effective offset slot_off + (sboff & 0x3FF) exactly when the
buffer exists (the uint64 window comparison of blkid_probe_get_buffer
accepts the slot; for the small-offset descriptor catalogue this is
exactly: the slot lies in the probing window) and the len magic bytes
equal the buffer bytes at sboff & 0x3FF.  It returns OK with the first
matching pattern, NONE when the descriptor declares magics but none match,
and OK when it declares none at all. -/
theorem get_idmag_spec (pr : BufProbe) (id : Idinfo) (hsz : 0 < pr.size) :
    (id.magics = [] →
       (blkid_probe_get_idmag pr id).1 = BLKID_PROBE_OK ∧
       (blkid_probe_get_idmag pr id).2.1 = none) ∧
    (id.magics ≠ [] → id.magics.find? (magMatches pr) = none →
       (blkid_probe_get_idmag pr id).1 = BLKID_PROBE_NONE ∧
       (blkid_probe_get_idmag pr id).2.1 = none) ∧
    (∀ m, id.magics.find? (magMatches pr) = some m →
       (blkid_probe_get_idmag pr id).1 = BLKID_PROBE_OK ∧
       (blkid_probe_get_idmag pr id).2.1 =
         some (wrap64 (magSlotOff m + m.sboff % 1024), m)) := by
  have hl := getIdmagLoopSpec pr hsz id.magics pr rfl rfl rfl
  unfold blkid_probe_get_idmag
  rcases hgo : getIdmagLoop pr id.magics with ⟨r, pr2⟩
  rw [hgo] at hl
  dsimp only at hl
  refine ⟨?_, ?_, ?_⟩
  · intro hm
    rw [hm] at hl ⊢
    simp only [List.find?_nil, Option.map_none'] at hl
    rw [hl]
    exact ⟨rfl, rfl⟩
  · intro hne hfind
    rw [hfind] at hl
    simp only [Option.map_none'] at hl
    rw [hl]
    dsimp only
    rw [if_pos hne]
    exact ⟨rfl, rfl⟩
  · intro m hfind
    rw [hfind] at hl
    simp only [Option.map_some'] at hl
    rw [hl]
    exact ⟨rfl, rfl⟩

set_option maxRecDepth 100000 in
/-- Witness for C2 at the concrete device extDisk: of the two magic
patterns of idExt the first misses and the second matches, with effective
offset 1024 + 56 = 1080. -/
theorem get_idmag_spec_witness :
    (blkid_probe_get_idmag extBufPr idExt).1 = BLKID_PROBE_OK ∧
    (blkid_probe_get_idmag extBufPr idExt).2.1 =
      some (wrap64 (magSlotOff magHit + magHit.sboff % 1024), magHit) :=
  (get_idmag_spec extBufPr idExt (by decide)).2.2 magHit (by decide)

/-- Value-producing operations never touch the current chain pointer or
the chain records. -/
theorem applyValOp_ctx (pr : ProbeState) (op : ValOp) :
    (applyValOp pr op).cur_chain = pr.cur_chain ∧
    (applyValOp pr op).chains = pr.chains := by
  cases op with
  | setVal n d l => exact ⟨rfl, rfl⟩
  | sprintfVal n d =>
    unfold applyValOp blkid_probe_sprintf_value
    dsimp only
    split_ifs <;> exact ⟨rfl, rfl⟩
  | setMagic off l m =>
    unfold applyValOp blkid_probe_set_magic
      blkid_probe_sprintf_value blkid_probe_set_value
    dsimp only
    rcases hc : pr.cur_chain with _ | c
    · exact ⟨hc, rfl⟩
    · dsimp only
      split_ifs <;> first
        | exact ⟨rfl, rfl⟩
        | exact ⟨hc, rfl⟩

/-- The (chain, name) pairs appended by one value-producing operation are
exactly valOpNames. -/
theorem applyValOp_names (pr : ProbeState) (op : ValOp) :
    ((applyValOp pr op).values).map (fun v => (v.chain, v.name)) =
      pr.values.map (fun v => (v.chain, v.name)) ++ valOpNames pr op := by
  cases op with
  | setVal n d l => simp [applyValOp, blkid_probe_set_value, valOpNames]
  | sprintfVal n d =>
    unfold applyValOp blkid_probe_sprintf_value valOpNames
    dsimp only
    split_ifs <;> simp_all
  | setMagic off l m =>
    unfold applyValOp blkid_probe_set_magic valOpNames
      blkid_probe_sprintf_value blkid_probe_set_value
    dsimp only
    rcases hc : pr.cur_chain with _ | c
    · simp
    · dsimp only
      split_ifs <;> simp_all

/-- valOpNames only reads the probing context. -/
theorem valOpNames_congr (pr1 pr2 : ProbeState)
    (hc : pr1.cur_chain = pr2.cur_chain) (hch : pr1.chains = pr2.chains) :
    valOpNames pr1 = valOpNames pr2 := by
  funext op
  cases op <;> unfold valOpNames <;> rw [hc, hch]

/-- Running a sequence of value-producing operations appends exactly the
flattened valOpNames projections to the value list. -/
theorem runValOps_names (ops : List ValOp) : ∀ pr : ProbeState,
    ((runValOps pr ops).values).map (fun v => (v.chain, v.name)) =
      pr.values.map (fun v => (v.chain, v.name)) ++ ops.flatMap (valOpNames pr) := by
  induction ops with
  | nil => intro pr; simp [runValOps]
  | cons op rest ih =>
    intro pr
    have hctx := applyValOp_ctx pr op
    have hfn : valOpNames (applyValOp pr op) = valOpNames pr :=
      valOpNames_congr _ _ hctx.1 hctx.2
    unfold runValOps
    rw [List.foldl_cons]
    have h2 := ih (applyValOp pr op)
    unfold runValOps at h2
    rw [h2, hfn, applyValOp_names, List.flatMap_cons, List.append_assoc]

/-- C8 counterexample: blkid_probe_assign_value appends unconditionally, so
two identical set_value calls leave two values with the same chain and the
same name on the list, violating the claimed invariant. -/
theorem values_dup_counterexample :
    ¬ uniquePerChainName
        ((runValOps { samplePr with cur_chain := some ⟨0, by decide⟩ }
          [ValOp.setVal "TYPE" [1] 1, ValOp.setVal "TYPE" [1] 1]).values) := by
  decide

/-- C8 (amended): the value-producing operations append unconditionally,
so the at-most-one-value-per-(chain, name) invariant holds exactly for the
runs that never append a (chain, name) pair twice: starting from an empty
value list, if the appended pairs are pairwise distinct then the list has
at most one value per (chain, name) pair, and if even the appended names
are pairwise distinct then no two values on the list share a name. -/
theorem values_unique_of_nodup (pr : ProbeState) (ops : List ValOp)
    (h0 : pr.values = [])
    (hnd : (ops.flatMap (valOpNames pr)).Nodup) :
    uniquePerChainName ((runValOps pr ops).values) ∧
    (((ops.flatMap (valOpNames pr)).map Prod.snd).Nodup →
      ((runValOps pr ops).values).Pairwise (fun a b => a.name ≠ b.name)) := by
  have h := runValOps_names ops pr
  rw [h0] at h
  simp only [List.map_nil, List.nil_append] at h
  constructor
  · rw [← h] at hnd
    unfold uniquePerChainName
    have hp := List.pairwise_map.mp hnd
    exact hp.imp (fun hne hand => hne (Prod.ext hand.1 hand.2))
  · intro hnames
    rw [← h] at hnames
    rw [List.map_map] at hnames
    have hp := List.pairwise_map.mp hnames
    exact hp.imp (fun hne => hne)

/-- Witness for C8 at a concrete run appending four distinct names (TYPE,
UUID, SBMAGIC, SBMAGIC_OFFSET) on the superblocks chain. -/
theorem values_unique_of_nodup_witness :
    uniquePerChainName
      ((runValOps { samplePr with cur_chain := some ⟨0, by decide⟩ }
        [ValOp.setVal "TYPE" [1] 1, ValOp.sprintfVal "UUID" [49],
         ValOp.setMagic 1024 2 [83, 239]]).values) ∧
    ((([ValOp.setVal "TYPE" [1] 1, ValOp.sprintfVal "UUID" [49],
        ValOp.setMagic 1024 2 [83, 239]].flatMap
          (valOpNames { samplePr with cur_chain := some ⟨0, by decide⟩ })).map
            Prod.snd).Nodup →
      ((runValOps { samplePr with cur_chain := some ⟨0, by decide⟩ }
        [ValOp.setVal "TYPE" [1] 1, ValOp.sprintfVal "UUID" [49],
         ValOp.setMagic 1024 2 [83, 239]]).values).Pairwise
           (fun a b => a.name ≠ b.name)) :=
  values_unique_of_nodup { samplePr with cur_chain := some ⟨0, by decide⟩ }
    [ValOp.setVal "TYPE" [1] 1, ValOp.sprintfVal "UUID" [49],
     ValOp.setMagic 1024 2 [83, 239]] rfl (by decide)

/-- C5: blkid_probe_step_back frees the whole buffer cache on every call,
decrements the current chain index exactly when it is non-negative, and
when the index has become -1 rewinds the current-chain pointer one chain
back: to the previous chain slot for the last chain, and to NULL (the
before-the-first-chain position from which blkid_do_probe restarts at
chains[0]) for the first two chains. -/
theorem step_back_spec (pr : ProbeState) (c : Fin NCHAINS)
    (hcur : pr.cur_chain = some c) (hid : (pr.chains c).id = c.val) :
    blkid_probe_step_back pr = some
      { pr with
        buffers := [],
        chains := if 0 ≤ (pr.chains c).idx
                  then Function.update pr.chains c
                         { pr.chains c with idx := (pr.chains c).idx - 1 }
                  else pr.chains,
        cur_chain :=
          if (if 0 ≤ (pr.chains c).idx then (pr.chains c).idx - 1
              else (pr.chains c).idx) = -1 then
            (if c.val = 2 then some ⟨1, by decide⟩ else none)
          else some c } := by
  unfold blkid_probe_step_back
  rw [hcur]
  dsimp only
  by_cases h0 : 0 ≤ (pr.chains c).idx
  · rw [if_pos h0, if_pos h0, if_pos h0]
    simp only [updChain, Function.update_same]
    dsimp only
    by_cases h1 : (pr.chains c).idx - 1 = -1
    · rw [if_pos h1, if_pos h1]
      rcases c with ⟨cv, hc⟩
      have hc3 : cv < 3 := hc
      interval_cases cv <;> simp_all [NCHAINS]
    · rw [if_neg h1, if_neg h1]
  · rw [if_neg h0, if_neg h0, if_neg h0]
    by_cases h1 : (pr.chains c).idx = -1
    · rw [if_pos h1, if_pos h1]
      rcases c with ⟨cv, hc⟩
      have hc3 : cv < 3 := hc
      interval_cases cv <;> simp_all [NCHAINS]
    · rw [if_neg h1, if_neg h1]

/-- Witness for C5 at the concrete prober prC5: the index of chain 1 drops
from 0 to -1, the current chain rewinds to NULL, and the cached buffer list
is emptied. -/
theorem step_back_spec_witness :
    blkid_probe_step_back prC5 = some
      { prC5 with
        buffers := [],
        chains := if 0 ≤ (prC5.chains ⟨1, by decide⟩).idx
                  then Function.update prC5.chains ⟨1, by decide⟩
                         { prC5.chains ⟨1, by decide⟩ with
                           idx := (prC5.chains ⟨1, by decide⟩).idx - 1 }
                  else prC5.chains,
        cur_chain :=
          if (if 0 ≤ (prC5.chains ⟨1, by decide⟩).idx
              then (prC5.chains ⟨1, by decide⟩).idx - 1
              else (prC5.chains ⟨1, by decide⟩).idx) = -1 then
            (if (⟨1, by decide⟩ : Fin NCHAINS).val = 2 then some ⟨1, by decide⟩ else none)
          else some ⟨1, by decide⟩ } :=
  step_back_spec prC5 ⟨1, by decide⟩ rfl rfl

/-- C7: evaluation of the parse_next key dispatch at the line
SEND_UEVENT=yes and at SEND_UEVENT=no.  Both set conf->uevent to FALSE (0):
the code skips 13 characters after the 12-character key, so the value
compared against the string yes is actually es.  The claim (and the blkid.8
man page, which documents SEND_UEVENT with default yes) expects yes to give
TRUE. -/
theorem parse_send_uevent_flags :
    (parse_next_line confInit ("SEND_UEVENT=yes".data)).map BlkidConfig.uevent
        = some 0 ∧
    (parse_next_line confInit ("SEND_UEVENT=no".data)).map BlkidConfig.uevent
        = some 0 := by
  decide

end Blkid

namespace Mnt

/-- C9: mnt_table_find_target performs exactly the three passes in the
requested direction, first hit wins: native byte comparison, canonicalized
path against native targets (only with a cache and a canonicalizable path),
then canonicalized path against canonicalized targets skipping swap areas,
kernel pseudo filesystems and the root target; none when no pass hits. -/
theorem find_target_three_passes (tb : LibmntTable) (path : String) (dir : Direction) :
    mnt_table_find_target tb path dir = findTargetSpec tb path dir := by
  unfold mnt_table_find_target findTargetSpec findTargetPass1 findTargetPass2 findTargetPass3
  rfl

end Mnt
